import Mathlib

/-!
# Verification of the Go-prompt-exercise file-reading subsystem

A shallow embedding of `Day-2/main.go`: the three `ContentReader`
strategies (`ReadFileContent`, `ReadFileContentSimple`,
`ReadFileContentIoutil`), the `StreamFileLines` line streamer, and the
HTTP handlers with their router.

The filesystem is modelled as a partial map from path strings to entries
(directories, or regular files carrying their raw byte content together
with two flags: `perm` — the open call succeeds — and `readOk` — reading
the opened handle succeeds).  Each embedded operation returns its Go
result together with the list of filesystem operations it performed, in
order, so that claims about probing order, absence of filesystem access
and handle release can be stated.
-/

namespace GoPromptExercise

/-- Underlying OS error kinds, as distinguished by `os.IsNotExist` /
`os.IsPermission` / EISDIR in the Go code. -/
inductive IOErr where
  | notExist
  | permission
  | eisdir
  | otherErr
deriving DecidableEq

/-- A filesystem entry: a directory, or a regular file with raw content.
`perm` models whether `os.Open` succeeds on it; `readOk` models whether
reading the opened handle succeeds. -/
inductive Entry where
  | dir
  | file (content : List Char) (perm : Bool) (readOk : Bool)
deriving DecidableEq

/-- The filesystem: a map from paths to entries (`none` = no entry). -/
structure FS where
  entries : String → Option Entry

/-- One observable filesystem operation performed by a read function. -/
inductive FsOp where
  | statOp (path : String)
  | openOk (path : String)
  | openFail (path : String)
  | readOp (path : String)
  | closeOp (path : String)
deriving DecidableEq

/-- The distinct error values produced by the three read strategies,
mirroring the `fmt.Errorf` calls in the Go source (wrapped OS errors are
carried as an `IOErr` field). -/
inductive GoErr where
  | emptyPath
  | openFailed (path : String) (u : IOErr)
  | isDirectory (path : String)
  | scanError (path : String)
  | readFileFailed (path : String) (u : IOErr)
  | doesNotExist (path : String)
  | isDirNotFile (path : String)
  | permissionDenied (path : String)
  | readAllError (path : String)
deriving DecidableEq

/-- `unicode.IsSpace` restricted to the Latin-1 range, which is what
`strings.TrimSpace` tests per rune: tab, newline, vertical tab, form
feed, carriage return, space, NEL (U+0085) and NBSP (U+00A0). -/
def isSpaceGo (c : Char) : Bool :=
  c = ' ' || c = '\t' || c = '\n' || c = Char.ofNat 11 || c = Char.ofNat 12 ||
    c = '\r' || c = Char.ofNat 133 || c = Char.ofNat 160

/-- `strings.TrimSpace` on a character list: drop leading and trailing
whitespace. -/
def trimSpace (s : List Char) : List Char :=
  ((s.dropWhile isSpaceGo).reverse.dropWhile isSpaceGo).reverse

/-- `strings.TrimSpace` on a string. -/
def trimSpaceStr (s : String) : String :=
  (trimSpace s.data).asString

/-- `dropCR` from `bufio.ScanLines`: drop a single terminal carriage
return from a token. -/
def dropCR (l : List Char) : List Char :=
  if l.getLast? = some '\r' then l.dropLast else l

/-- The token loop of `bufio.Scanner` with the default `ScanLines` split
function: `acc` holds the (reversed) characters of the line being
accumulated.  On a newline the token is the accumulated data with a
terminal CR dropped; at end of input a final non-empty accumulation is
emitted as a last token, while exhausted input with nothing accumulated
ends the scan with no further token. -/
def scanLinesAux : List Char → List Char → List (List Char)
  | [], acc => if acc = [] then [] else [dropCR acc.reverse]
  | c :: rest, acc =>
    if c = '\n' then dropCR acc.reverse :: scanLinesAux rest []
    else scanLinesAux rest (c :: acc)

/-- The sequence of tokens `bufio.Scanner` yields (via `scanner.Text()`)
on the given raw file content. -/
def scanLines (content : List Char) : List (List Char) :=
  scanLinesAux content []

/-- The accumulation loop of `ReadFileContent`: `lineCount` starts at 0
and is incremented before each line is appended; the first line is
assigned directly, every later line is appended as `"\n" + line`. -/
def buildLoop : List (List Char) → Nat → List Char → List Char
  | [], _, content => content
  | l :: ls, lineCount, content =>
    if lineCount + 1 = 1 then buildLoop ls (lineCount + 1) l
    else buildLoop ls (lineCount + 1) (content ++ '\n' :: l)

/-- The content string `ReadFileContent` accumulates from the scanner's
tokens. -/
def buildContent (lines : List (List Char)) : List Char :=
  buildLoop lines 0 []

/-- `ReadFileContent` (Day-2/main.go): rejects only the exactly-empty
path, then opens the file, fstats the handle, rejects directories, and
accumulates the scanner's lines.  The result pairs Go's
`(string, error)` return with the list of filesystem operations
performed. -/
def ReadFileContent (fs : FS) (filePath : String) :
    (List Char × Option GoErr) × List FsOp :=
  if filePath = "" then (([], some .emptyPath), [])
  else
    match fs.entries filePath with
    | none => (([], some (.openFailed filePath .notExist)), [.openFail filePath])
    | some .dir =>
        (([], some (.isDirectory filePath)),
          [.openOk filePath, .statOp filePath, .closeOp filePath])
    | some (.file content perm readOk) =>
        if perm then
          if readOk then
            ((buildContent (scanLines content), none),
              [.openOk filePath, .statOp filePath, .readOp filePath, .closeOp filePath])
          else
            (([], some (.scanError filePath)),
              [.openOk filePath, .statOp filePath, .readOp filePath, .closeOp filePath])
        else (([], some (.openFailed filePath .permission)), [.openFail filePath])

/-- `ReadFileContentSimple` (Day-2/main.go): rejects only the
exactly-empty path, then delegates to `os.ReadFile`, which opens, reads
and closes with no separate stat probe; any failure is surfaced as the
single wrapped read error. -/
def ReadFileContentSimple (fs : FS) (filePath : String) :
    (List Char × Option GoErr) × List FsOp :=
  if filePath = "" then (([], some .emptyPath), [])
  else
    match fs.entries filePath with
    | none => (([], some (.readFileFailed filePath .notExist)), [.openFail filePath])
    | some .dir =>
        (([], some (.readFileFailed filePath .eisdir)),
          [.openOk filePath, .readOp filePath, .closeOp filePath])
    | some (.file content perm readOk) =>
        if perm then
          if readOk then
            ((content, none), [.openOk filePath, .readOp filePath, .closeOp filePath])
          else
            (([], some (.readFileFailed filePath .otherErr)),
              [.openOk filePath, .readOp filePath, .closeOp filePath])
        else (([], some (.readFileFailed filePath .permission)), [.openFail filePath])

/-- `ReadFileContentIoutil` (Day-2/main.go): rejects paths that are
empty after `strings.TrimSpace`, stats the path (distinguishing
not-exist), rejects directories, short-circuits with empty success for a
zero-length file, then opens (distinguishing permission errors) and
drains the handle with `io.ReadAll`. -/
def ReadFileContentIoutil (fs : FS) (filePath : String) :
    (List Char × Option GoErr) × List FsOp :=
  if trimSpaceStr filePath = "" then (([], some .emptyPath), [])
  else
    match fs.entries filePath with
    | none => (([], some (.doesNotExist filePath)), [.statOp filePath])
    | some .dir => (([], some (.isDirNotFile filePath)), [.statOp filePath])
    | some (.file content perm readOk) =>
        if content.length = 0 then (([], none), [.statOp filePath])
        else if perm then
          if readOk then
            ((content, none),
              [.statOp filePath, .openOk filePath, .readOp filePath, .closeOp filePath])
          else
            (([], some (.readAllError filePath)),
              [.statOp filePath, .openOk filePath, .readOp filePath, .closeOp filePath])
        else (([], some (.permissionDenied filePath)), [.statOp filePath, .openFail filePath])

/-- The error values `StreamFileLines` can return; `ε` is the type of
errors raised by the caller-supplied processor, and `processingError`
records the 1-based line number together with the wrapped inner error. -/
inductive StreamErr (ε : Type) where
  | emptyPath
  | doesNotExist (path : String)
  | isDirNotFile (path : String)
  | permissionDenied (path : String)
  | readError (path : String)
  | processingError (line : Nat) (inner : ε)
deriving DecidableEq

/-- The scan loop of `StreamFileLines`: invoke the processor on each
line with its 1-based number starting from `n`; on the first processor
error stop (no further lines are read) and report the failing number and
error.  Also returns the list of invocations made, in order. -/
def streamLoop {ε : Type} (processor : List Char → Nat → Option ε) :
    List (List Char) → Nat → Option (Nat × ε) × List (List Char × Nat)
  | [], _ => (none, [])
  | l :: ls, n =>
    match processor l n with
    | some e => (some (n, e), [(l, n)])
    | none =>
      let r := streamLoop processor ls (n + 1)
      (r.1, (l, n) :: r.2)

/-- `StreamFileLines` (Day-2/main.go): rejects paths empty after
trimming, stats the path, rejects directories, opens (distinguishing
permission errors), then streams the scanner's lines through the
processor, numbering from 1.  Returns Go's `error` result, the
filesystem operations performed, and the processor invocations made. -/
def StreamFileLines {ε : Type} (fs : FS) (filePath : String)
    (processor : List Char → Nat → Option ε) :
    Option (StreamErr ε) × List FsOp × List (List Char × Nat) :=
  if trimSpaceStr filePath = "" then (some .emptyPath, [], [])
  else
    match fs.entries filePath with
    | none => (some (.doesNotExist filePath), [.statOp filePath], [])
    | some .dir => (some (.isDirNotFile filePath), [.statOp filePath], [])
    | some (.file content perm readOk) =>
        if perm then
          if readOk then
            match streamLoop processor (scanLines content) 1 with
            | (some (n, e), calls) =>
                (some (.processingError n e),
                  [.statOp filePath, .openOk filePath, .readOp filePath,
                    .closeOp filePath], calls)
            | (none, calls) =>
                (none,
                  [.statOp filePath, .openOk filePath, .readOp filePath,
                    .closeOp filePath], calls)
          else
            (some (.readError filePath),
              [.statOp filePath, .openOk filePath, .readOp filePath,
                .closeOp filePath], [])
        else
          (some (.permissionDenied filePath), [.statOp filePath, .openFail filePath], [])

/-! ### HTTP layer -/

/-- An HTTP request: method, URL path, and the parsed query string as an
ordered list of key/value pairs. -/
structure Request where
  method : String
  path : String
  query : List (String × String)
deriving DecidableEq

/-- An HTTP response: status code, headers in the order they were set,
and the body text. -/
structure Response where
  status : Nat
  headers : List (String × String)
  body : String
deriving DecidableEq

/-- `url.Values.Get`: the first value associated with the key, or the
empty string when the key is absent. -/
def queryGet (q : List (String × String)) (key : String) : String :=
  match q.find? (fun p => p.1 = key) with
  | some p => p.2
  | none => ""

/-- `setCommonHeaders`: the three security headers set unconditionally
on every response. -/
def commonHeaders : List (String × String) :=
  [("X-Content-Type-Options", "nosniff"),
    ("X-XSS-Protection", "1; mode=block"),
    ("X-Frame-Options", "DENY")]

/-- `handleNotFound`: 404 with the fixed body. -/
def handleNotFound : Response :=
  { status := 404
    headers := commonHeaders ++ [("Content-Type", "text/plain")]
    body := "Route not found." }

/-- `handleMethodNotAllowed`: 405 with the fixed body and `Allow: GET`. -/
def handleMethodNotAllowed : Response :=
  { status := 405
    headers := commonHeaders ++ [("Content-Type", "text/plain"), ("Allow", "GET")]
    body := "Method Not Allowed." }

/-- Rendering of the wrapped OS error texts used in response bodies. -/
def IOErr.message : IOErr → String
  | .notExist => "no such file or directory"
  | .permission => "permission denied"
  | .eisdir => "is a directory"
  | .otherErr => "input/output error"

/-- The `fmt.Errorf` message of each read error, as it would appear when
the error is rendered with `%v`. -/
def GoErr.message : GoErr → String
  | .emptyPath => "file path cannot be empty"
  | .openFailed p u => "failed to open file '" ++ p ++ "': " ++ u.message
  | .isDirectory p => "'" ++ p ++ "' is a directory, not a file"
  | .scanError p => "error reading file '" ++ p ++ "': " ++ IOErr.otherErr.message
  | .readFileFailed p u => "failed to read file '" ++ p ++ "': " ++ u.message
  | .doesNotExist p => "file does not exist: " ++ p
  | .isDirNotFile p => "path is a directory, not a file: " ++ p
  | .permissionDenied p => "permission denied: cannot read file " ++ p
  | .readAllError p => "error reading file '" ++ p ++ "': " ++ IOErr.otherErr.message

/-- `homeHandler`: method check first, then exact-path check for `/`. -/
def homeHandler (r : Request) : Response :=
  if r.method ≠ "GET" then handleMethodNotAllowed
  else if r.path ≠ "/" then handleNotFound
  else
    { status := 200
      headers := commonHeaders ++ [("Content-Type", "text/plain")]
      body := "Welcome to the Go HTTP Server" }

/-- `helloHandler`: greets the `name` query parameter, defaulting to
`Guest` when it is the empty string. -/
def helloHandler (r : Request) : Response :=
  if r.method ≠ "GET" then handleMethodNotAllowed
  else
    let name0 := queryGet r.query "name"
    let name := if name0 = "" then "Guest" else name0
    { status := 200
      headers := commonHeaders ++ [("Content-Type", "text/plain")]
      body := "Hello, " ++ name ++ "!" }

/-- `healthHandler`: the JSON health body (with the trailing newline the
JSON encoder appends). -/
def healthHandler (r : Request) : Response :=
  if r.method ≠ "GET" then handleMethodNotAllowed
  else
    { status := 200
      headers := commonHeaders ++ [("Content-Type", "application/json")]
      body := "\x7b\"status\":\"ok\"\x7d\n" }

/-- `fileReadHandler`: resolves the `file` query parameter (defaulting
to `sample.txt` when it is the empty string), delegates to
`ReadFileContent`, and renders either the 400 error body or the 200
content body. -/
def fileReadHandler (fs : FS) (r : Request) : Response :=
  if r.method ≠ "GET" then handleMethodNotAllowed
  else
    let file0 := queryGet r.query "file"
    let filename := if file0 = "" then "sample.txt" else file0
    match (ReadFileContent fs filename).1 with
    | (_, some e) =>
        { status := 400
          headers := commonHeaders ++ [("Content-Type", "text/plain")]
          body := "Error reading file '" ++ filename ++ "': " ++ e.message ++ "\n" }
    | (content, none) =>
        { status := 200
          headers := commonHeaders ++ [("Content-Type", "text/plain")]
          body := "Content of '" ++ filename ++ "' (" ++ toString content.length
            ++ " characters):\n\n" ++ content.asString }

/-- The `ServeMux` routing of `startHTTPServer`: the exact patterns
`/hello`, `/health` and `/read-file`, with the root pattern `/` matching
every other path. -/
def serve (fs : FS) (r : Request) : Response :=
  if r.path = "/hello" then helloHandler r
  else if r.path = "/health" then healthHandler r
  else if r.path = "/read-file" then fileReadHandler fs r
  else homeHandler r

/-! ### Helper definitions for the claims -/

/-- The spec's description of the line-accumulating result: the lines
joined by a single newline separator inserted between (but not after)
each line. -/
def joinWithNewlines : List (List Char) → List Char
  | [] => []
  | [l] => l
  | l :: ls => l ++ '\n' :: joinWithNewlines ls

/-- All lines after the first, each preceded by its separating newline. -/
def tailJoin : List (List Char) → List Char
  | [] => []
  | l :: ls => '\n' :: (l ++ tailJoin ls)

/-- Recognises the stat operation in a trace. -/
def isStat : FsOp → Bool
  | .statOp _ => true
  | _ => false

/-- Recognises a successful open in a trace. -/
def isOpenOk : FsOp → Bool
  | .openOk _ => true
  | _ => false

/-- Recognises any open attempt (successful or failed) in a trace. -/
def isOpenAttempt : FsOp → Bool
  | .openOk _ => true
  | .openFail _ => true
  | _ => false

/-- Recognises the close operation in a trace. -/
def isClose : FsOp → Bool
  | .closeOp _ => true
  | _ => false

/-- A trace probes before opening when it contains a stat and an open
attempt and the first stat strictly precedes the first open attempt. -/
def probeBeforeOpen (t : List FsOp) : Bool :=
  match t.findIdx? isStat, t.findIdx? isOpenAttempt with
  | some i, some j => i < j
  | _, _ => false

/-- Every handle acquired in the trace is released: the close count
equals the successful-open count, and when a handle was opened the
trace's final operation is the close. -/
def releasedAll (t : List FsOp) : Bool :=
  (t.countP isClose == t.countP isOpenOk) &&
    (t.countP isOpenOk == 0 ||
      (match t.getLast? with
        | some (.closeOp _) => true
        | _ => false))

/-- Pairs each list element with its position, numbering from `n`. -/
def numberFrom {α : Type} : Nat → List α → List (α × Nat)
  | _, [] => []
  | n, x :: xs => (x, n) :: numberFrom (n + 1) xs

/-- A filesystem holding exactly one regular, readable file. -/
def singleFileFS (path : String) (content : List Char) : FS :=
  ⟨fun p => if p = path then some (.file content true true) else none⟩

/-- The empty filesystem. -/
def emptyFS : FS := ⟨fun _ => none⟩

/-- Concrete filesystem for witnesses: one readable three-line file. -/
def streamFS : FS := singleFileFS "t.txt" ['a', '\n', 'b', '\n', 'c']

/-- A processor that fails (with error `0`) on line 2 and accepts every
other line. -/
def failAtTwo : List Char → Nat → Option Nat :=
  fun _ n => if n = 2 then some 0 else none

/-- Concrete filesystem for trace witnesses: one readable one-byte file. -/
def probeFS : FS := singleFileFS "a.txt" ['x']

/-! ### Helper lemmas -/

lemma buildLoop_succ (ls : List (List Char)) :
    ∀ (n : Nat) (c : List Char), buildLoop ls (n + 1) c = c ++ tailJoin ls := by
  induction ls with
  | nil => intro n c; simp [buildLoop, tailJoin]
  | cons l ls ih =>
    intro n c
    rw [buildLoop, if_neg (by omega), ih, tailJoin]
    simp

lemma joinWithNewlines_cons (ls : List (List Char)) :
    ∀ l, joinWithNewlines (l :: ls) = l ++ tailJoin ls := by
  induction ls with
  | nil => intro l; simp [joinWithNewlines, tailJoin]
  | cons l2 ls2 ih =>
    intro l
    show l ++ '\n' :: joinWithNewlines (l2 :: ls2) = l ++ tailJoin (l2 :: ls2)
    rw [ih l2, tailJoin]

lemma buildContent_eq_join (ls : List (List Char)) :
    buildContent ls = joinWithNewlines ls := by
  cases ls with
  | nil => rfl
  | cons l ls =>
    rw [buildContent, buildLoop, if_pos rfl, joinWithNewlines_cons]
    exact buildLoop_succ ls 0 l

lemma scanLinesAux_cons (c : Char) (rest acc : List Char) :
    scanLinesAux (c :: rest) acc =
      if c = '\n' then dropCR acc.reverse :: scanLinesAux rest []
      else scanLinesAux rest (c :: acc) := rfl

lemma scanLinesAux_nil (acc : List Char) :
    scanLinesAux [] acc = if acc = [] then [] else [dropCR acc.reverse] := rfl

lemma scanLinesAux_append_newline (l : List Char) :
    ∀ acc, l ≠ [] → l.getLast? ≠ some '\n' →
      scanLinesAux (l ++ ['\n']) acc = scanLinesAux l acc := by
  induction l with
  | nil => intro acc h _; exact absurd rfl h
  | cons c rest ih =>
    intro acc _ hlast
    cases rest with
    | nil =>
      have hc : c ≠ '\n' := by simpa using hlast
      simp [scanLinesAux_cons, scanLinesAux_nil, hc]
    | cons d rest' =>
      have hlast' : (d :: rest').getLast? ≠ some '\n' := by
        rwa [List.getLast?_cons_cons] at hlast
      by_cases hc : c = '\n'
      · subst hc
        show dropCR acc.reverse :: scanLinesAux ((d :: rest') ++ ['\n']) []
            = dropCR acc.reverse :: scanLinesAux (d :: rest') []
        rw [ih [] (by simp) hlast']
      · rw [List.cons_append, scanLinesAux_cons, scanLinesAux_cons, if_neg hc, if_neg hc]
        exact ih (c :: acc) (by simp) hlast'

lemma trimSpaceStr_all_space (path : String)
    (h : ∀ c ∈ path.data, isSpaceGo c = true) : trimSpaceStr path = "" := by
  have h1 : path.data.dropWhile isSpaceGo = [] :=
    List.dropWhile_eq_nil_iff.mpr h
  rw [trimSpaceStr, trimSpace, h1]
  rfl

lemma streamLoop_stops_at_failure {ε : Type} (processor : List Char → Nat → Option ε) :
    ∀ (ls : List (List Char)) (start k : Nat) (e : ε),
      k < ls.length →
      (∀ i, i < k → processor (ls.getD i []) (start + i) = none) →
      processor (ls.getD k []) (start + k) = some e →
      streamLoop processor ls start
        = (some (start + k, e), numberFrom start (ls.take (k + 1))) := by
  intro ls
  induction ls with
  | nil => intro start k e hk _ _; exact absurd hk (by simp)
  | cons l ls ih =>
    intro start k e hk hbefore hfail
    cases k with
    | zero =>
      have hf : processor l start = some e := by simpa using hfail
      simp [streamLoop, hf, numberFrom]
    | succ k' =>
      have h0 : processor l start = none := by
        have := hbefore 0 (Nat.succ_pos k')
        simpa using this
      have hk' : k' < ls.length := by simpa using hk
      have hbefore' : ∀ i, i < k' → processor (ls.getD i []) (start + 1 + i) = none := by
        intro i hi
        have := hbefore (i + 1) (by omega)
        have harith : start + (i + 1) = start + 1 + i := by omega
        simpa [harith] using this
      have hfail' : processor (ls.getD k' []) (start + 1 + k') = some e := by
        have harith : start + (k' + 1) = start + 1 + k' := by omega
        simpa [harith] using hfail
      have hrec := ih (start + 1) k' e hk' hbefore' hfail'
      have harith : start + 1 + k' = start + (k' + 1) := by omega
      simp [streamLoop, h0, hrec, numberFrom, harith]

/-! ### Claims -/

/-- C5: for every readable regular file, `ReadFileContent` returns
exactly the file's lines (the tokens the buffered scanner yields, which
is how the source delimits lines regardless of original line-ending
style) concatenated with a single newline separator inserted between,
but not after, each line — `joinWithNewlines` is the spec's description
of that joining. -/
theorem readFileContent_joins_lines (fs : FS) (path : String) (content : List Char)
    (hpath : path ≠ "") (hfile : fs.entries path = some (.file content true true)) :
    (ReadFileContent fs path).1 = (joinWithNewlines (scanLines content), none) := by
  unfold ReadFileContent
  rw [if_neg hpath, hfile]
  show (buildContent (scanLines content), (none : Option GoErr)) = _
  rw [buildContent_eq_join]

/-- Witness for C5 at a concrete two-line file. -/
theorem readFileContent_joins_lines_witness :
    (("sample.txt" : String) ≠ "" ∧
      (singleFileFS "sample.txt" ['h', 'i', '\n', 'y', 'o']).entries "sample.txt"
        = some (.file ['h', 'i', '\n', 'y', 'o'] true true)) ∧
    (ReadFileContent (singleFileFS "sample.txt" ['h', 'i', '\n', 'y', 'o']) "sample.txt").1
      = (joinWithNewlines (scanLines ['h', 'i', '\n', 'y', 'o']), none) :=
  ⟨⟨by decide, by decide⟩,
    readFileContent_joins_lines _ _ _ (by decide) (by decide)⟩

/-- C9 fails as stated: a file whose raw content is `"a\n\n"` (its last
line is empty) yields content `"a\n"`, which ends in a newline; and the
file `"a\n"` — which differs from it only by the trailing final
newline — yields `"a"`, a different result. -/
theorem readFileContent_trailing_newline_counterexample :
    (ReadFileContent (singleFileFS "f.txt" ['a', '\n', '\n']) "f.txt").1.1 = ['a', '\n'] ∧
    (ReadFileContent (singleFileFS "f.txt" ['a', '\n', '\n']) "f.txt").1.1.getLast?
      = some '\n' ∧
    (ReadFileContent (singleFileFS "f.txt" ['a', '\n']) "f.txt").1.1 = ['a'] := by
  decide

/-- C9 (amended): `ReadFileContent` strips exactly one trailing line
terminator: when the raw content does not already end in a newline,
appending one leaves the successful result (and the whole outcome)
unchanged.  The result can still end in a newline when the file's last
line is empty (two consecutive terminators). -/
theorem readFileContent_trailing_newline_amended (path : String) (raw : List Char)
    (hpath : path ≠ "") (hlast : raw.getLast? ≠ some '\n') :
    ReadFileContent (singleFileFS path (raw ++ ['\n'])) path
      = ReadFileContent (singleFileFS path raw) path := by
  have hE1 : (singleFileFS path (raw ++ ['\n'])).entries path
      = some (.file (raw ++ ['\n']) true true) := by simp [singleFileFS]
  have hE2 : (singleFileFS path raw).entries path
      = some (.file raw true true) := by simp [singleFileFS]
  unfold ReadFileContent
  rw [if_neg hpath, if_neg hpath, hE1, hE2]
  rcases eq_or_ne raw [] with hraw | hraw
  · subst hraw; rfl
  · have hscan : scanLines (raw ++ ['\n']) = scanLines raw := by
      rw [scanLines, scanLines, scanLinesAux_append_newline raw [] hraw hlast]
    show ((buildContent (scanLines (raw ++ ['\n'])), (none : Option GoErr)),
        [FsOp.openOk path, .statOp path, .readOp path, .closeOp path]) = _
    rw [hscan]
    rfl

/-- Witness for the amended C9 at the raw content `"a"`. -/
theorem readFileContent_trailing_newline_amended_witness :
    (("g.txt" : String) ≠ "" ∧ (['a'] : List Char).getLast? ≠ some '\n') ∧
    ReadFileContent (singleFileFS "g.txt" (['a'] ++ ['\n'])) "g.txt"
      = ReadFileContent (singleFileFS "g.txt" ['a']) "g.txt" :=
  ⟨⟨by decide, by decide⟩,
    readFileContent_trailing_newline_amended "g.txt" ['a'] (by decide) (by decide)⟩

/-- C7: each of the three strategies returns either a content with no
error or an empty content with an error — never non-empty content
together with a non-nil error. -/
theorem contentReaders_no_partial_content (fs : FS) (path : String) :
    ((ReadFileContent fs path).1.2 = none ∨ (ReadFileContent fs path).1.1 = []) ∧
    ((ReadFileContentSimple fs path).1.2 = none ∨ (ReadFileContentSimple fs path).1.1 = []) ∧
    ((ReadFileContentIoutil fs path).1.2 = none ∨ (ReadFileContentIoutil fs path).1.1 = []) := by
  refine ⟨?_, ?_, ?_⟩
  · unfold ReadFileContent
    by_cases h0 : path = ""
    · simp [h0]
    · rw [if_neg h0]
      rcases hE : fs.entries path with _ | (_ | ⟨c, p, r⟩)
      · simp [hE]
      · simp [hE]
      · cases p <;> cases r <;> simp
  · unfold ReadFileContentSimple
    by_cases h0 : path = ""
    · simp [h0]
    · rw [if_neg h0]
      rcases hE : fs.entries path with _ | (_ | ⟨c, p, r⟩)
      · simp [hE]
      · simp [hE]
      · cases p <;> cases r <;> simp
  · unfold ReadFileContentIoutil
    by_cases h0 : trimSpaceStr path = ""
    · simp [h0]
    · rw [if_neg h0]
      rcases hE : fs.entries path with _ | (_ | ⟨c, p, r⟩)
      · simp [hE]
      · simp [hE]
      · by_cases hc : c.length = 0 <;> cases p <;> cases r <;> simp [hc]

/-- C8: in every run of the three handle-opening operations
(`ReadFileContent`, `ReadFileContentIoutil`, `StreamFileLines`), every
successfully acquired handle is released before the operation returns:
the trace's close count equals its successful-open count, and whenever a
handle was opened the trace's final operation is the close. -/
theorem handles_released (ε : Type) (fs : FS) (path : String)
    (processor : List Char → Nat → Option ε) :
    releasedAll (ReadFileContent fs path).2 = true ∧
    releasedAll (ReadFileContentIoutil fs path).2 = true ∧
    releasedAll (StreamFileLines fs path processor).2.1 = true := by
  refine ⟨?_, ?_, ?_⟩
  · unfold ReadFileContent
    by_cases h0 : path = ""
    · rw [if_pos h0]; rfl
    · rw [if_neg h0]
      rcases hE : fs.entries path with _ | (_ | ⟨c, p, r⟩)
      · rfl
      · rfl
      · cases p <;> cases r <;> rfl
  · unfold ReadFileContentIoutil
    by_cases h0 : trimSpaceStr path = ""
    · rw [if_pos h0]; rfl
    · rw [if_neg h0]
      rcases hE : fs.entries path with _ | (_ | ⟨c, p, r⟩)
      · rfl
      · rfl
      · rcases c with _ | ⟨ch, ct⟩
        · rfl
        · cases p <;> cases r <;> rfl
  · unfold StreamFileLines
    by_cases h0 : trimSpaceStr path = ""
    · rw [if_pos h0]; rfl
    · rw [if_neg h0]
      rcases hE : fs.entries path with _ | (_ | ⟨c, p, r⟩)
      · rfl
      · rfl
      · cases p <;> cases r
        · rfl
        · rfl
        · rfl
        · rcases hS : streamLoop processor (scanLines c) 1 with ⟨res, calls⟩
          rcases res with _ | ⟨n, e⟩ <;> simp [hS, releasedAll] <;> rfl

/-- C10: at the HTTP interface an empty-valued query parameter behaves
exactly like an absent one — `GET /hello?name=` produces the greeting
for Guest, and `GET /read-file?file=` serves the default `sample.txt`
(the same response as asking for `sample.txt` explicitly), on every
filesystem. -/
theorem query_empty_equals_absent (fs : FS) :
    serve fs ⟨"GET", "/hello", [("name", "")]⟩ = serve fs ⟨"GET", "/hello", []⟩ ∧
    (serve fs ⟨"GET", "/hello", [("name", "")]⟩).body = "Hello, Guest!" ∧
    serve fs ⟨"GET", "/read-file", [("file", "")]⟩
      = serve fs ⟨"GET", "/read-file", [("file", "sample.txt")]⟩ :=
  ⟨rfl, rfl, rfl⟩

/-- C4 fails as stated: the non-GET request `POST /nope` targets an
undefined route, yet the server answers 405 `Method Not Allowed.`
(the root handler checks the method before the path), not 404
`Route not found.`. -/
theorem unknown_route_counterexample :
    serve emptyFS ⟨"POST", "/nope", []⟩ = handleMethodNotAllowed ∧
    (serve emptyFS ⟨"POST", "/nope", []⟩).status = 405 ∧
    (serve emptyFS ⟨"POST", "/nope", []⟩).status ≠ 404 ∧
    (serve emptyFS ⟨"POST", "/nope", []⟩).body ≠ "Route not found." := by
  refine ⟨rfl, rfl, by decide, by decide⟩

/-- C4 (amended): every GET request whose URL path is none of the four
defined routes receives status 404 with the fixed body
`Route not found.`; a non-GET request to such a path instead receives
the 405 response. -/
theorem unknown_route_amended (fs : FS) (path : String) (q : List (String × String))
    (h1 : path ≠ "/") (h2 : path ≠ "/hello") (h3 : path ≠ "/health")
    (h4 : path ≠ "/read-file") :
    (serve fs ⟨"GET", path, q⟩).status = 404 ∧
    (serve fs ⟨"GET", path, q⟩).body = "Route not found." := by
  unfold serve homeHandler
  rw [if_neg h2, if_neg h3, if_neg h4]
  simp [h1, handleNotFound]

/-- Witness for the amended C4 at the path `/nope`. -/
theorem unknown_route_amended_witness :
    (("/nope" : String) ≠ "/" ∧ ("/nope" : String) ≠ "/hello" ∧
      ("/nope" : String) ≠ "/health" ∧ ("/nope" : String) ≠ "/read-file") ∧
    ((serve emptyFS ⟨"GET", "/nope", []⟩).status = 404 ∧
      (serve emptyFS ⟨"GET", "/nope", []⟩).body = "Route not found.") :=
  ⟨⟨by decide, by decide, by decide, by decide⟩,
    unknown_route_amended emptyFS "/nope" [] (by decide) (by decide) (by decide)
      (by decide)⟩

/-- C6: on a zero-length regular accessible file all three strategies
succeed with empty content, and `ReadFileContentIoutil` does so having
performed only the stat — no open and no read. -/
theorem empty_file_all_strategies (fs : FS) (path : String)
    (ht : trimSpaceStr path ≠ "")
    (hfile : fs.entries path = some (.file [] true true)) :
    (ReadFileContent fs path).1 = ([], none) ∧
    (ReadFileContentSimple fs path).1 = ([], none) ∧
    ReadFileContentIoutil fs path = (([], none), [.statOp path]) := by
  have h0 : path ≠ "" := by
    intro h; exact ht (by rw [h]; rfl)
  refine ⟨?_, ?_, ?_⟩
  · unfold ReadFileContent; rw [if_neg h0, hfile]; rfl
  · unfold ReadFileContentSimple; rw [if_neg h0, hfile]; rfl
  · unfold ReadFileContentIoutil; rw [if_neg ht, hfile]; rfl

/-- Witness for C6 at a concrete empty file. -/
theorem empty_file_all_strategies_witness :
    (trimSpaceStr "empty.txt" ≠ "" ∧
      (singleFileFS "empty.txt" []).entries "empty.txt" = some (.file [] true true)) ∧
    ((ReadFileContent (singleFileFS "empty.txt" []) "empty.txt").1 = ([], none) ∧
      (ReadFileContentSimple (singleFileFS "empty.txt" []) "empty.txt").1 = ([], none) ∧
      ReadFileContentIoutil (singleFileFS "empty.txt" []) "empty.txt"
        = (([], none), [.statOp "empty.txt"])) :=
  ⟨⟨by decide, by decide⟩, empty_file_all_strategies _ _ (by decide) (by decide)⟩

/-- C3: when the processor first fails at the N-th line (1-based, with
error `e`), `StreamFileLines` invokes the processor exactly on lines 1
through N in order (`numberFrom 1` of the first N scanner lines), reads
no further lines, and returns the processing error recording N and
wrapping `e`. -/
theorem streamFileLines_halts_on_processor_error (ε : Type) (fs : FS) (path : String)
    (content : List Char) (processor : List Char → Nat → Option ε) (N : Nat) (e : ε)
    (hpath : trimSpaceStr path ≠ "")
    (hfile : fs.entries path = some (.file content true true))
    (hN : 1 ≤ N) (hlen : N ≤ (scanLines content).length)
    (hbefore : ∀ i, i < N - 1 →
      processor ((scanLines content).getD i []) (i + 1) = none)
    (hfail : processor ((scanLines content).getD (N - 1) []) N = some e) :
    StreamFileLines fs path processor
      = (some (.processingError N e),
          [.statOp path, .openOk path, .readOp path, .closeOp path],
          numberFrom 1 ((scanLines content).take N)) := by
  obtain ⟨k, rfl⟩ : ∃ k, N = k + 1 := ⟨N - 1, by omega⟩
  have hbefore' : ∀ i, i < k → processor ((scanLines content).getD i []) (1 + i) = none := by
    intro i hi
    have := hbefore i (by omega)
    simpa [Nat.add_comm] using this
  have hfail' : processor ((scanLines content).getD k []) (1 + k) = some e := by
    simpa [Nat.add_comm] using hfail
  have hloop := streamLoop_stops_at_failure processor (scanLines content) 1 k e
    (by omega) hbefore' hfail'
  unfold StreamFileLines
  rw [if_neg hpath, hfile]
  dsimp only
  rw [hloop]
  have harith : 1 + k = k + 1 := Nat.add_comm 1 k
  rw [harith]
  rfl

/-- Witness for C3: a three-line file with a processor failing on
line 2. -/
theorem streamFileLines_halts_witness :
    (trimSpaceStr "t.txt" ≠ "" ∧
      streamFS.entries "t.txt"
        = some (.file ['a', '\n', 'b', '\n', 'c'] true true) ∧
      1 ≤ 2 ∧ 2 ≤ (scanLines ['a', '\n', 'b', '\n', 'c']).length ∧
      (∀ i, i < 2 - 1 →
        failAtTwo ((scanLines ['a', '\n', 'b', '\n', 'c']).getD i []) (i + 1) = none) ∧
      failAtTwo ((scanLines ['a', '\n', 'b', '\n', 'c']).getD (2 - 1) []) 2 = some 0) ∧
    StreamFileLines streamFS "t.txt" failAtTwo
      = (some (.processingError 2 0),
          [.statOp "t.txt", .openOk "t.txt", .readOp "t.txt", .closeOp "t.txt"],
          numberFrom 1 ((scanLines ['a', '\n', 'b', '\n', 'c']).take 2)) :=
  ⟨⟨by decide, by decide, by decide, by decide, by decide, by decide⟩,
    streamFileLines_halts_on_processor_error Nat streamFS "t.txt"
      ['a', '\n', 'b', '\n', 'c'] failAtTwo 2 0 (by decide) (by decide) (by decide)
      (by decide) (by decide) (by decide)⟩

/-- C1 fails as stated: on the whitespace-only path `"   "` (three
spaces), `ReadFileContent` does not return the empty-path error — it
attempts to open the path (a filesystem access) and surfaces the open
failure — and `ReadFileContentSimple` likewise performs an open attempt;
only `ReadFileContentIoutil` trims before validating. -/
theorem validation_whitespace_counterexample :
    (ReadFileContent emptyFS "   ").1.2 = some (.openFailed "   " .notExist) ∧
    (ReadFileContent emptyFS "   ").1.2 ≠ some .emptyPath ∧
    (ReadFileContent emptyFS "   ").2 = [.openFail "   "] ∧
    (ReadFileContentSimple emptyFS "   ").1.2 ≠ some .emptyPath ∧
    (ReadFileContentSimple emptyFS "   ").2 = [.openFail "   "] ∧
    (ReadFileContentIoutil emptyFS "   ").1.2 = some .emptyPath := by
  decide

/-- C1 (amended): for every whitespace-only path,
`ReadFileContentIoutil` returns the empty-path error with no filesystem
access; `ReadFileContent` and `ReadFileContentSimple` do so only when
the path is exactly empty — on a non-empty whitespace-only path they
perform filesystem access (an open attempt) and do not return the
empty-path error. -/
theorem validation_whitespace_amended (fs : FS) (path : String)
    (hw : ∀ c ∈ path.data, isSpaceGo c = true) :
    ReadFileContentIoutil fs path = (([], some .emptyPath), []) ∧
    (path = "" →
      ReadFileContent fs path = (([], some .emptyPath), []) ∧
      ReadFileContentSimple fs path = (([], some .emptyPath), [])) ∧
    (path ≠ "" →
      (ReadFileContent fs path).2 ≠ [] ∧
      (ReadFileContentSimple fs path).2 ≠ [] ∧
      (ReadFileContent fs path).1.2 ≠ some .emptyPath ∧
      (ReadFileContentSimple fs path).1.2 ≠ some .emptyPath) := by
  have ht : trimSpaceStr path = "" := trimSpaceStr_all_space path hw
  refine ⟨?_, ?_, ?_⟩
  · unfold ReadFileContentIoutil
    rw [if_pos ht]
  · intro h0
    subst h0
    exact ⟨rfl, rfl⟩
  · intro h0
    refine ⟨?_, ?_, ?_, ?_⟩
    · unfold ReadFileContent
      rw [if_neg h0]
      rcases hE : fs.entries path with _ | (_ | ⟨c, p, r⟩)
      · simp
      · simp
      · cases p <;> cases r <;> simp
    · unfold ReadFileContentSimple
      rw [if_neg h0]
      rcases hE : fs.entries path with _ | (_ | ⟨c, p, r⟩)
      · simp
      · simp
      · cases p <;> cases r <;> simp
    · unfold ReadFileContent
      rw [if_neg h0]
      rcases hE : fs.entries path with _ | (_ | ⟨c, p, r⟩)
      · simp
      · simp
      · cases p <;> cases r <;> simp
    · unfold ReadFileContentSimple
      rw [if_neg h0]
      rcases hE : fs.entries path with _ | (_ | ⟨c, p, r⟩)
      · simp
      · simp
      · cases p <;> cases r <;> simp

/-- Witness for the amended C1 at the path of three spaces over the
empty filesystem. -/
theorem validation_whitespace_amended_witness :
    (∀ c ∈ ("   " : String).data, isSpaceGo c = true) ∧
    (ReadFileContentIoutil emptyFS "   " = (([], some .emptyPath), []) ∧
      (("   " : String) = "" →
        ReadFileContent emptyFS "   " = (([], some .emptyPath), []) ∧
        ReadFileContentSimple emptyFS "   " = (([], some .emptyPath), [])) ∧
      (("   " : String) ≠ "" →
        (ReadFileContent emptyFS "   ").2 ≠ [] ∧
        (ReadFileContentSimple emptyFS "   ").2 ≠ [] ∧
        (ReadFileContent emptyFS "   ").1.2 ≠ some .emptyPath ∧
        (ReadFileContentSimple emptyFS "   ").1.2 ≠ some .emptyPath)) :=
  ⟨by decide, validation_whitespace_amended emptyFS "   " (by decide)⟩

/-- C2 fails as stated: on a readable regular file, only one of the
three strategies (`ReadFileContentIoutil`) performs its stat probe
before the open; `ReadFileContent` — one of the two strategies the claim
would have probing first — opens the file before its stat-plus-directory
probe, and it does perform a probe, so it is not the probe-free
strategy either (that is `ReadFileContentSimple`). -/
theorem probe_order_counterexample :
    probeBeforeOpen (ReadFileContentIoutil probeFS "a.txt").2 = true ∧
    probeBeforeOpen (ReadFileContent probeFS "a.txt").2 = false ∧
    probeBeforeOpen (ReadFileContentSimple probeFS "a.txt").2 = false ∧
    (ReadFileContent probeFS "a.txt").2.countP isStat = 1 ∧
    (ReadFileContentSimple probeFS "a.txt").2.countP isStat = 0 := by
  decide

/-- C2 (amended): on every non-trivial path, `ReadFileContentIoutil`'s
first filesystem operation is the stat (the probe precedes any open);
`ReadFileContent`'s first operation is the open attempt (its
stat-plus-directory probe happens only after the handle is acquired);
and `ReadFileContentSimple` never performs a stat, surfacing whatever
the combined open-and-read call raises. -/
theorem probe_order_amended (fs : FS) (path : String)
    (h0 : path ≠ "") (ht : trimSpaceStr path ≠ "") :
    (ReadFileContentIoutil fs path).2.head? = some (.statOp path) ∧
    ((ReadFileContent fs path).2.head? = some (.openOk path) ∨
      (ReadFileContent fs path).2.head? = some (.openFail path)) ∧
    (ReadFileContentSimple fs path).2.countP isStat = 0 := by
  refine ⟨?_, ?_, ?_⟩
  · unfold ReadFileContentIoutil
    rw [if_neg ht]
    rcases hE : fs.entries path with _ | (_ | ⟨c, p, r⟩)
    · rfl
    · rfl
    · rcases c with _ | ⟨ch, ct⟩
      · rfl
      · cases p <;> cases r <;> rfl
  · unfold ReadFileContent
    rw [if_neg h0]
    rcases hE : fs.entries path with _ | (_ | ⟨c, p, r⟩)
    · right; rfl
    · left; rfl
    · cases p <;> cases r
      · right; rfl
      · right; rfl
      · left; rfl
      · left; rfl
  · unfold ReadFileContentSimple
    rw [if_neg h0]
    rcases hE : fs.entries path with _ | (_ | ⟨c, p, r⟩)
    · rfl
    · rfl
    · cases p <;> cases r <;> rfl

/-- Witness for the amended C2 at a concrete readable file. -/
theorem probe_order_amended_witness :
    (("a.txt" : String) ≠ "" ∧ trimSpaceStr "a.txt" ≠ "") ∧
    ((ReadFileContentIoutil probeFS "a.txt").2.head? = some (.statOp "a.txt") ∧
      ((ReadFileContent probeFS "a.txt").2.head? = some (.openOk "a.txt") ∨
        (ReadFileContent probeFS "a.txt").2.head? = some (.openFail "a.txt")) ∧
      (ReadFileContentSimple probeFS "a.txt").2.countP isStat = 0) :=
  ⟨⟨by decide, by decide⟩, probe_order_amended probeFS "a.txt" (by decide) (by decide)⟩

end GoPromptExercise
